import Mathlib

/-!
Verification of the core of `scripts/md_to_word.py`, a Markdown-to-Word
converter for Chinese official-document formatting.  The Python source is
shallowly embedded: strings become `List Char`, the per-line parser and the
regex-based inline rewrites become recursive Lean functions mirroring the
Python control flow, and the CLI / COM-automation environment becomes an
explicit record of booleans.
-/

namespace MdToWord

/-! ## Python string primitives -/

/-- The character set stripped by Python's `str.strip()` / `str.rstrip()`
and matched by the regex class `\s` (Unicode whitespace, per `str.isspace`). -/
def isPySpace (c : Char) : Bool :=
  decide ((9 ≤ c.toNat ∧ c.toNat ≤ 13) ∨ (28 ≤ c.toNat ∧ c.toNat ≤ 31) ∨
    c.toNat = 32 ∨ c.toNat = 133 ∨ c.toNat = 160 ∨ c.toNat = 0x1680 ∨
    (0x2000 ≤ c.toNat ∧ c.toNat ≤ 0x200A) ∨ c.toNat = 0x2028 ∨
    c.toNat = 0x2029 ∨ c.toNat = 0x202F ∨ c.toNat = 0x205F ∨ c.toNat = 0x3000)

/-- Python `str.lstrip()`. -/
def pyLstrip (l : List Char) : List Char := l.dropWhile isPySpace

/-- Python `str.rstrip()`. -/
def pyRstrip (l : List Char) : List Char := (l.reverse.dropWhile isPySpace).reverse

/-- Python `str.strip()`. -/
def pyStrip (l : List Char) : List Char := pyRstrip (pyLstrip l)

/-- Python `content.split('\n')`: always at least one field, empty fields kept. -/
def pySplitNl : List Char → List (List Char)
  | [] => [[]]
  | c :: rest =>
    if c = '\n' then [] :: pySplitNl rest
    else
      match pySplitNl rest with
      | [] => [[c]]
      | l :: ls => (c :: l) :: ls

/-! ## Element data model (`MarkdownParser.parse` output dicts) -/

inductive ListKind : Type
  | ul
  | ol
deriving DecidableEq

inductive Element : Type
  | empty
  | h1 (text : List Char)
  | h2 (text : List Char)
  | h3 (text : List Char)
  | p (text : List Char)
  | li (kind : ListKind) (text : List Char)
deriving DecidableEq

/-! ## `MarkdownParser.parse` (lines 167-223 of the source) -/

/-- `re.match(r'^[\*\-]\s+', line)`: marker char then at least one whitespace.
ASCII `*`/`-` are literal in the source pattern. -/
def ulMatch : List Char → Bool
  | c :: d :: _ => (c = '*' || c = '-') && isPySpace d
  | _ => false

/-- `re.sub(r'^[\*\-]\s+', '', line)` on a line known to match: drop the
marker and the maximal following whitespace run (greedy `\s+`). -/
def ulStrip (l : List Char) : List Char := (l.drop 1).dropWhile isPySpace

/-- `re.match(r'^\d+\.\s+', line)`: one-plus digits, a dot, one-plus
whitespace.  Digits are modelled as ASCII `0`-`9` (the source regex `\d`
also admits other Unicode decimal digits, which no claim exercises). -/
def olMatch (l : List Char) : Bool :=
  let ds := l.takeWhile Char.isDigit
  !ds.isEmpty &&
    (match l.drop ds.length with
     | '.' :: d :: _ => isPySpace d
     | _ => false)

/-- `re.sub(r'^\d+\.\s+', '', line)` on a matching line. -/
def olStrip (l : List Char) : List Char :=
  ((l.dropWhile Char.isDigit).drop 1).dropWhile isPySpace

/-- The body of one iteration of the `while` loop in `parse`: classify a
single raw line (trailing-whitespace-trimmed first), first match wins. -/
def classifyLine (raw : List Char) : Element :=
  let line := pyRstrip raw
  if line = [] then Element.empty
  else if "# ".data.isPrefixOf line then Element.h1 (pyStrip (line.drop 2))
  else if "## ".data.isPrefixOf line then Element.h2 (pyStrip (line.drop 3))
  else if "### ".data.isPrefixOf line then Element.h3 (pyStrip (line.drop 4))
  else if ulMatch line then Element.li ListKind.ul (ulStrip line)
  else if olMatch line then Element.li ListKind.ol (olStrip line)
  else Element.p line

/-- The `while i < len(self.lines)` loop of `parse`, with every branch
appending one element and advancing `i` by one, written as recursion over
the remaining lines with the branch structure of the source inlined. -/
def parseLoop : List (List Char) → List Element
  | [] => []
  | raw :: rest =>
    let line := pyRstrip raw
    if line = [] then Element.empty :: parseLoop rest
    else if "# ".data.isPrefixOf line then
      Element.h1 (pyStrip (line.drop 2)) :: parseLoop rest
    else if "## ".data.isPrefixOf line then
      Element.h2 (pyStrip (line.drop 3)) :: parseLoop rest
    else if "### ".data.isPrefixOf line then
      Element.h3 (pyStrip (line.drop 4)) :: parseLoop rest
    else if ulMatch line then
      Element.li ListKind.ul (ulStrip line) :: parseLoop rest
    else if olMatch line then
      Element.li ListKind.ol (olStrip line) :: parseLoop rest
    else Element.p line :: parseLoop rest

/-- `MarkdownParser(content).parse()`: `__init__` splits on `'\n'`, `parse`
walks the lines. -/
def parseElems (content : List Char) : List Element :=
  parseLoop (pySplitNl content)

/-! ## `MarkdownParser.process_inline` (lines 225-233)

Each Python `re.sub` call is embedded as a left-to-right scan mirroring the
regex engine: at each position try to match the (anchored-at-position)
pattern; on success emit the replacement and resume after the match, on
failure emit one character and retry at the next position.  The lazy
`(.+?)` bodies take the shortest nonempty run of non-newline characters
followed by the closing delimiter. -/

/-- The backquote character (U+0060). -/
def btick : Char := Char.ofNat 96

/-- Lazy body scan for `(.+?)` followed by a fixed closing delimiter:
shortest nonempty run of non-newline characters such that `close` follows;
returns the body and the suffix after the closing delimiter. -/
def scanBody (close : List Char) : List Char → Option (List Char × List Char)
  | [] => none
  | c :: rest =>
    if c = '\n' then none
    else if close.isPrefixOf rest then some ([c], rest.drop close.length)
    else
      match scanBody close rest with
      | some (b, rem) => some (c :: b, rem)
      | none => none

/-- Lazy body scan for rule b's `(.+?)(?<!\*)\*(?!\*)`: shortest nonempty
non-newline run whose next character is a `*` not preceded (last body char)
nor followed by another `*`; the character after the closing `*` is not
consumed (lookahead). -/
def scanEmBody : List Char → Option (List Char × List Char)
  | [] => none
  | c :: rest =>
    if c = '\n' then none
    else if rest.head? = some '*' ∧ c ≠ '*' ∧ rest.tail.head? ≠ some '*' then
      some ([c], rest.tail)
    else
      match scanEmBody rest with
      | some (b, rem) => some (c :: b, rem)
      | none => none

/-- Greedy character-class scan for `[^x]+` followed by the literal `x`:
everything up to the first `x` (at least one character); fails if the first
character already is `x` or no `x` follows. -/
def scanClass (stop : Char) : List Char → Option (List Char × List Char)
  | [] => none
  | c :: rest =>
    if c = stop then none
    else if rest.head? = some stop then some ([c], rest.tail)
    else
      match scanClass stop rest with
      | some (b, rem) => some (c :: b, rem)
      | none => none

/-- `re.sub(r'\*\*(.+?)\*\*', r'<strong>\1</strong>', text)`, fuelled. -/
def subStrongF : Nat → List Char → List Char
  | 0, s => s
  | _, [] => []
  | fuel + 1, c :: rest =>
    if c = '*' ∧ rest.head? = some '*' then
      match scanBody ['*', '*'] rest.tail with
      | some (b, rem) =>
          "<strong>".data ++ b ++ "</strong>".data ++ subStrongF fuel rem
      | none => c :: subStrongF fuel rest
    else c :: subStrongF fuel rest

def subStrong (s : List Char) : List Char := subStrongF s.length s

/-- `re.sub(r'(?<!\*)\*(?!\*)(.+?)(?<!\*)\*(?!\*)', r'<em>\1</em>', text)`,
fuelled; `prev` is the character preceding the scan position (for the
leading lookbehind), `none` at the start of the string. -/
def subEmF : Nat → Option Char → List Char → List Char
  | 0, _, s => s
  | _, _, [] => []
  | fuel + 1, prev, c :: rest =>
    if c = '*' ∧ prev ≠ some '*' ∧ rest.head? ≠ some '*' then
      match scanEmBody rest with
      | some (b, rem) =>
          "<em>".data ++ b ++ "</em>".data ++ subEmF fuel (some '*') rem
      | none => c :: subEmF fuel (some c) rest
    else c :: subEmF fuel (some c) rest

def subEm (s : List Char) : List Char := subEmF s.length none s

/-- `re.sub(r'~~(.+?)~~', r'<s>\1</s>', text)`, fuelled. -/
def subStrikeF : Nat → List Char → List Char
  | 0, s => s
  | _, [] => []
  | fuel + 1, c :: rest =>
    if c = '~' ∧ rest.head? = some '~' then
      match scanBody ['~', '~'] rest.tail with
      | some (b, rem) => "<s>".data ++ b ++ "</s>".data ++ subStrikeF fuel rem
      | none => c :: subStrikeF fuel rest
    else c :: subStrikeF fuel rest

def subStrike (s : List Char) : List Char := subStrikeF s.length s

/-- `re.sub(r'\[([^\]]+)\]\(([^\)]+)\)', r'<a href="\2">\1</a>', text)`,
fuelled. -/
def subLinkF : Nat → List Char → List Char
  | 0, s => s
  | _, [] => []
  | fuel + 1, c :: rest =>
    if c = '[' then
      match scanClass ']' rest with
      | some (label, rest2) =>
        match rest2 with
        | '(' :: rest3 =>
          match scanClass ')' rest3 with
          | some (url, rest4) =>
              "<a href=\"".data ++ url ++ "\">".data ++ label ++
                "</a>".data ++ subLinkF fuel rest4
          | none => c :: subLinkF fuel rest
        | _ => c :: subLinkF fuel rest
      | none => c :: subLinkF fuel rest
    else c :: subLinkF fuel rest

def subLink (s : List Char) : List Char := subLinkF s.length s

/-- The inline-code rule (backquote-delimited, `[^x]+` body with `x` the
backquote), fuelled. -/
def subCodeF : Nat → List Char → List Char
  | 0, s => s
  | _, [] => []
  | fuel + 1, c :: rest =>
    if c = btick then
      match scanClass btick rest with
      | some (b, rem) =>
          "<code>".data ++ b ++ "</code>".data ++ subCodeF fuel rem
      | none => c :: subCodeF fuel rest
    else c :: subCodeF fuel rest

def subCode (s : List Char) : List Char := subCodeF s.length s

/-- `MarkdownParser.process_inline`: the five rewrites applied in source
order by successive reassignment of `text`. -/
def process_inline (text : List Char) : List Char :=
  let text := subStrong text
  let text := subEm text
  let text := subStrike text
  let text := subLink text
  let text := subCode text
  text

/-! ## `HTMLGenerator.generate` body loop (lines 291-306) -/

/-- The `elem["list_type"]` tag string. -/
def listTag : ListKind → List Char
  | ListKind.ul => "ul".data
  | ListKind.ol => "ol".data

/-- The markup produced for one element by the body loop of `generate`:
`empty` becomes a non-breaking blank paragraph, `li` a standalone
single-item list container of its kind, every other kind its own tag
around the inline-transformed text. -/
def renderElem : Element → List Char
  | Element.empty => "<p>&nbsp;</p>".data
  | Element.li k t =>
      "<".data ++ listTag k ++ ">".data ++ "<li>".data ++ process_inline t ++
        "</li>".data ++ "</".data ++ listTag k ++ ">".data
  | Element.h1 t => "<h1>".data ++ process_inline t ++ "</h1>".data
  | Element.h2 t => "<h2>".data ++ process_inline t ++ "</h2>".data
  | Element.h3 t => "<h3>".data ++ process_inline t ++ "</h3>".data
  | Element.p t => "<p>".data ++ process_inline t ++ "</p>".data

/-- The `for elem in elements` loop of `generate` building `html_body`,
with the `if`/`elif` branch structure of the source inlined. -/
def htmlBody : List Element → List (List Char)
  | [] => []
  | e :: rest =>
    (match e with
     | Element.empty => "<p>&nbsp;</p>".data
     | Element.li k t =>
         "<".data ++ listTag k ++ ">".data ++ "<li>".data ++
           process_inline t ++ "</li>".data ++ "</".data ++ listTag k ++
           ">".data
     | Element.h1 t => "<h1>".data ++ process_inline t ++ "</h1>".data
     | Element.h2 t => "<h2>".data ++ process_inline t ++ "</h2>".data
     | Element.h3 t => "<h3>".data ++ process_inline t ++ "</h3>".data
     | Element.p t => "<p>".data ++ process_inline t ++ "</p>".data) ::
      htmlBody rest

/-! ## Style model (lines 26-108) and `ask_style_config` (lines 433-509) -/

structure FontConfig : Type where
  family : List Char
  size : ℚ
deriving DecidableEq

structure ParagraphConfig : Type where
  line_spacing : ℚ
  space_before : ℚ
  space_after : ℚ
  align : List Char
  first_line_indent : ℚ
deriving DecidableEq

structure ElementStyle : Type where
  name : String
  font : FontConfig
  paragraph : ParagraphConfig
deriving DecidableEq

def default_h1 : ElementStyle :=
  ⟨"一级标题", ⟨"黑体".data, 16⟩, ⟨30, 0, 12, "center".data, 0⟩⟩

def default_h2 : ElementStyle :=
  ⟨"二级标题", ⟨"黑体".data, 16⟩, ⟨30, 12, 12, "left".data, 0⟩⟩

def default_h3 : ElementStyle :=
  ⟨"三级标题", ⟨"黑体".data, 16⟩, ⟨28, 6, 6, "left".data, 0⟩⟩

def default_p : ElementStyle :=
  ⟨"正文", ⟨"仿宋_GB2312".data, 16⟩, ⟨28, 0, 0, "justify".data, 2⟩⟩

def default_li : ElementStyle :=
  ⟨"列表", ⟨"仿宋_GB2312".data, 16⟩, ⟨28, 0, 0, "justify".data, 0⟩⟩

/-- The `DEFAULT_STYLES` dict, as an insertion-ordered association list. -/
def DEFAULT_STYLES : List (String × ElementStyle) :=
  [("h1", default_h1), ("h2", default_h2), ("h3", default_h3),
   ("p", default_p), ("li", default_li)]

/-- `int(digit string)` helper. -/
def digitsToNat (l : List Char) : Nat :=
  l.foldl (fun a c => 10 * a + (c.toNat - 48)) 0

/-- Python `float(s)` on the simple decimal forms `[+-]digits[.digits]`
(a subset of what CPython accepts; the built-in default strings all fall in
it).  `none` models an uncaught `ValueError`. -/
def pyFloat? (s : List Char) : Option ℚ :=
  let sgn : ℚ × List Char :=
    match s with
    | '-' :: r => (-1, r)
    | '+' :: r => (1, r)
    | _ => (1, s)
  let ip := sgn.2.takeWhile Char.isDigit
  match sgn.2.drop ip.length with
  | [] => if ip.isEmpty then none else some (sgn.1 * digitsToNat ip)
  | '.' :: fr =>
    let fp := fr.takeWhile Char.isDigit
    if !(fr.drop fp.length).isEmpty then none
    else if ip.isEmpty && fp.isEmpty then none
    else some (sgn.1 * ((digitsToNat ip : ℚ) + (digitsToNat fp : ℚ) / 10 ^ fp.length))
  | _ => none

/-- One `input(...).strip() or default` read from the remaining response
stream; `none` models `EOFError` (stream exhausted). -/
def readResp (resps : List (List Char)) (dflt : List Char) :
    Option (List Char × List (List Char)) :=
  match resps with
  | [] => none
  | r :: rest =>
    let r' := pyStrip r
    some (if r'.isEmpty then dflt else r', rest)

/-- The five prompts of one style block of `ask_style_config`. -/
def read5 (resps : List (List Char)) (d1 d2 d3 d4 d5 : List Char) :
    Option ((List Char × List Char × List Char × List Char × List Char) ×
      List (List Char)) := do
  let (a, r1) ← readResp resps d1
  let (b, r2) ← readResp r1 d2
  let (c, r3) ← readResp r2 d3
  let (d, r4) ← readResp r3 d4
  let (e, r5) ← readResp r4 d5
  pure ((a, b, c, d, e), r5)

/-- `ask_style_config()`: prompts for `h1`, `h2`, `p` only; an `EOFError`
anywhere falls back to the full built-in defaults (the `except` branch);
a `float()` failure is an uncaught `ValueError`, modelled as `none`.
Returns the style dict together with the unconsumed response stream. -/
def ask_style_config (resps : List (List Char)) :
    Option (List (String × ElementStyle) × List (List Char)) :=
  match read5 resps "黑体".data "16".data "center".data "30".data "12".data with
  | none => some (DEFAULT_STYLES, [])
  | some ((f1, sz1, al1, ls1, sa1), r1) =>
    match pyFloat? sz1, pyFloat? ls1, pyFloat? sa1 with
    | some szv1, some lsv1, some sav1 =>
      let s1 : ElementStyle :=
        ⟨"一级标题", ⟨f1, szv1⟩, ⟨lsv1, 0, sav1, al1, 0⟩⟩
      match read5 r1 "黑体".data "16".data "left".data "30".data "12".data with
      | none => some (DEFAULT_STYLES, [])
      | some ((f2, sz2, al2, ls2, sa2), r2) =>
        match pyFloat? sz2, pyFloat? ls2, pyFloat? sa2 with
        | some szv2, some lsv2, some sav2 =>
          let s2 : ElementStyle :=
            ⟨"二级标题", ⟨f2, szv2⟩, ⟨lsv2, 12, sav2, al2, 0⟩⟩
          match read5 r2 "仿宋_GB2312".data "16".data "justify".data
              "28".data "2".data with
          | none => some (DEFAULT_STYLES, [])
          | some ((f3, sz3, al3, ls3, ind3), r3) =>
            match pyFloat? sz3, pyFloat? ls3, pyFloat? ind3 with
            | some szv3, some lsv3, some indv3 =>
              let s3 : ElementStyle :=
                ⟨"正文", ⟨f3, szv3⟩, ⟨lsv3, 0, 0, al3, indv3⟩⟩
              some ([("h1", s1), ("h2", s2), ("p", s3),
                     ("h3", default_h3), ("li", default_li)], r3)
            | _, _, _ => none
        | _, _, _ => none
    | _, _, _ => none

/-! ## Command surface and exit status (lines 326-653)

The COM / filesystem environment is abstracted into three booleans: whether
`AppDetector.detect_app` finds a ProgID, whether the input file exists, and
whether the COM open/save sequence completes without raising. -/

structure Env : Type where
  appFound : Bool
  inputExists : Bool
  saveOk : Bool

/-- `DocumentConverter.html_to_docx` returns `True` iff an application was
found and the open/save sequence did not raise. -/
def html_to_docx_ok (env : Env) : Bool := env.appFound && env.saveOk

/-- `convert_md_to_word` returns a path (success) iff the input file exists
and `html_to_docx` succeeds. -/
def convert_ok (env : Env) : Bool := env.inputExists && html_to_docx_ok env

/-- Parsed command-line arguments (field order: `md_file`, `no_prompt`,
`open_after`, `check_app`). -/
structure Args : Type where
  md_file : Option String
  no_prompt : Bool
  open_after : Bool
  check_app : Bool

/-- Python `str.lower()` (ASCII range, as exercised by the y/n prompts). -/
def pyLower (l : List Char) : List Char := l.map Char.toLower

/-- `ask_yes_no`: loops until a recognised answer; `EOFError` (exhausted
stream) yields the default.  Returns the answer and the unconsumed
stream. -/
def ask_yes_no (resps : List (List Char)) (dflt : Bool) :
    Bool × List (List Char) :=
  match resps with
  | [] => (dflt, [])
  | r :: rest =>
    let r' := pyLower (pyStrip r)
    if r'.isEmpty then (dflt, rest)
    else if r' = "y".data ∨ r' = "yes".data ∨ r' = "是".data then (true, rest)
    else if r' = "n".data ∨ r' = "no".data ∨ r' = "否".data then (false, rest)
    else ask_yes_no rest dflt

/-- Exit status of `interactive_mode`: an uncaught `ValueError` inside
`ask_style_config` aborts the interpreter (status 1); otherwise the
function prints its report and returns normally, so the process exits 0
whether or not the conversion succeeded. -/
def interactive_exit (env : Env) (resps : List (List Char)) : Nat :=
  let ud := ask_yes_no resps true
  let stylesRes :=
    if ud.1 then some (DEFAULT_STYLES, ud.2) else ask_style_config ud.2
  match stylesRes with
  | none => 1
  | some (_, _) => if convert_ok env then 0 else 0

/-- Exit status of `main()`: `--check-app` reports and returns; a missing
file argument exits 1; `--no-prompt` exits 1 on conversion failure;
otherwise `interactive_mode` runs. -/
def main_exit (a : Args) (env : Env) (resps : List (List Char)) : Nat :=
  if a.check_app then 0
  else
    match a.md_file with
    | none => 1
    | some _ =>
      if a.no_prompt then (if convert_ok env then 0 else 1)
      else interactive_exit env resps

/-- Texts free of the four inline-delimiter characters. -/
def noDelims (s : List Char) : Prop :=
  '*' ∉ s ∧ '~' ∉ s ∧ '[' ∉ s ∧ btick ∉ s

instance (s : List Char) : Decidable (noDelims s) := by
  unfold noDelims
  infer_instance

/-! ## Supporting lemmas -/

theorem parseLoop_cons (raw : List Char) (rest : List (List Char)) :
    parseLoop (raw :: rest) = classifyLine raw :: parseLoop rest := by
  conv_lhs => rw [parseLoop]
  unfold classifyLine
  dsimp only
  split_ifs <;> rfl

theorem parseLoop_eq_map (ls : List (List Char)) :
    parseLoop ls = ls.map classifyLine := by
  induction ls with
  | nil => rfl
  | cons l rest ih => rw [parseLoop_cons, ih, List.map_cons]

theorem parseLoop_append (a b : List (List Char)) :
    parseLoop (a ++ b) = parseLoop a ++ parseLoop b := by
  simp [parseLoop_eq_map]

theorem pySplitNl_ne_nil (s : List Char) : pySplitNl s ≠ [] := by
  cases s with
  | nil => simp [pySplitNl]
  | cons c rest =>
    unfold pySplitNl
    split_ifs
    · simp
    · cases h : pySplitNl rest <;> simp

theorem pySplitNl_no_newline (s : List Char) (h : '\n' ∉ s) :
    pySplitNl s = [s] := by
  induction s with
  | nil => rfl
  | cons c rest ih =>
    rw [List.mem_cons] at h
    push_neg at h
    unfold pySplitNl
    rw [if_neg (fun hc => h.1 hc.symm), ih h.2]

theorem pySplitNl_append_nl (s : List Char) :
    pySplitNl (s ++ ['\n']) = pySplitNl s ++ [[]] := by
  induction s with
  | nil => rfl
  | cons c rest ih =>
    by_cases hc : c = '\n'
    · subst hc
      show pySplitNl ('\n' :: (rest ++ ['\n'])) = pySplitNl ('\n' :: rest) ++ [[]]
      unfold pySplitNl
      rw [if_pos rfl, if_pos rfl, ih]
      rfl
    · show pySplitNl (c :: (rest ++ ['\n'])) = pySplitNl (c :: rest) ++ [[]]
      unfold pySplitNl
      rw [if_neg hc, if_neg hc, ih]
      obtain ⟨t, ts, ht⟩ : ∃ t ts, pySplitNl rest = t :: ts := by
        cases h : pySplitNl rest with
        | nil => exact absurd h (pySplitNl_ne_nil rest)
        | cons t ts => exact ⟨t, ts, rfl⟩
      rw [ht]
      rfl

theorem pySplitNl_replicate (k : Nat) :
    pySplitNl (List.replicate k '\n') = List.replicate (k + 1) [] := by
  induction k with
  | zero => rfl
  | succ n ih =>
    rw [List.replicate_succ]
    show pySplitNl ('\n' :: List.replicate n '\n') = _
    unfold pySplitNl
    rw [if_pos rfl, ih]
    rfl

theorem dropWhile_length_le (p : Char → Bool) (l : List Char) :
    (l.dropWhile p).length ≤ l.length := by
  induction l with
  | nil => simp
  | cons c rest ih =>
    rw [List.dropWhile_cons]
    split_ifs
    · calc (rest.dropWhile p).length ≤ rest.length := ih
        _ ≤ (c :: rest).length := by simp
    · simp

theorem dropWhile_length_eq (p : Char → Bool) (l : List Char)
    (h : (l.dropWhile p).length = l.length) : l.dropWhile p = l := by
  cases l with
  | nil => rfl
  | cons c rest =>
    rw [List.dropWhile_cons] at h ⊢
    split_ifs at h ⊢ with hc
    · exfalso
      have := dropWhile_length_le p rest
      simp at h
      omega
    · rfl

theorem pyRstrip_length_le (l : List Char) : (pyRstrip l).length ≤ l.length := by
  unfold pyRstrip
  calc (l.reverse.dropWhile isPySpace).reverse.length
      = (l.reverse.dropWhile isPySpace).length := by simp
    _ ≤ l.reverse.length := dropWhile_length_le _ _
    _ = l.length := by simp

theorem pyLstrip_eq_self_of_strip {T : List Char} (h : pyStrip T = T) :
    pyLstrip T = T := by
  have h3 := congrArg List.length h
  unfold pyStrip pyLstrip at h3
  have h1 := dropWhile_length_le isPySpace T
  have h2 := pyRstrip_length_le (T.dropWhile isPySpace)
  unfold pyLstrip
  exact dropWhile_length_eq _ _ (by omega)

theorem pyRstrip_eq_self_of_strip {T : List Char} (h : pyStrip T = T) :
    pyRstrip T = T := by
  have hl := pyLstrip_eq_self_of_strip h
  rw [pyStrip, hl] at h
  exact h

theorem rstrip_last_not_space {T : List Char} (h : pyRstrip T = T)
    (hne : T ≠ []) : ∃ c cs, T.reverse = c :: cs ∧ isPySpace c = false := by
  obtain ⟨c, cs, hrev⟩ : ∃ c cs, T.reverse = c :: cs := by
    cases hr : T.reverse with
    | nil => exact absurd (by simpa using congrArg List.reverse hr) hne
    | cons c cs => exact ⟨c, cs, rfl⟩
  refine ⟨c, cs, hrev, ?_⟩
  have hd : T.reverse.dropWhile isPySpace = T.reverse := by
    have := congrArg List.reverse h
    rwa [pyRstrip, List.reverse_reverse] at this
  rw [hrev, List.dropWhile_cons] at hd
  by_contra hc
  simp only [Bool.not_eq_false] at hc
  rw [if_pos hc] at hd
  have := dropWhile_length_le isPySpace cs
  have := congrArg List.length hd
  simp at this
  omega

theorem pyRstrip_append (pre : List Char) {T : List Char}
    (h : pyRstrip T = T) (hne : T ≠ []) :
    pyRstrip (pre ++ T) = pre ++ T := by
  obtain ⟨c, cs, hrev, hc⟩ := rstrip_last_not_space h hne
  have hT : T = cs.reverse ++ [c] := by
    have := congrArg List.reverse hrev
    simpa using this
  unfold pyRstrip
  rw [List.reverse_append, hrev]
  show ((c :: (cs ++ pre.reverse)).dropWhile isPySpace).reverse = pre ++ T
  rw [List.dropWhile_cons, if_neg (by simp [hc])]
  rw [List.reverse_cons, List.reverse_append, List.reverse_reverse, hT]
  simp

theorem htmlBody_cons (e : Element) (rest : List Element) :
    htmlBody (e :: rest) = renderElem e :: htmlBody rest := by
  cases e <;> rfl

theorem htmlBody_eq_map (els : List Element) :
    htmlBody els = els.map renderElem := by
  induction els with
  | nil => rfl
  | cons e rest ih => rw [htmlBody_cons, ih, List.map_cons]

theorem subStrongF_no_star : ∀ (fuel : Nat) (s : List Char), '*' ∉ s →
    subStrongF fuel s = s := by
  intro fuel
  induction fuel with
  | zero => intro s _; cases s <;> rfl
  | succ n ih =>
    intro s hs
    cases s with
    | nil => rfl
    | cons c rest =>
      rw [List.mem_cons] at hs
      push_neg at hs
      conv_lhs => rw [subStrongF]
      rw [if_neg (fun hc => hs.1 hc.1.symm), ih rest hs.2]

theorem subEmF_no_star : ∀ (fuel : Nat) (prev : Option Char) (s : List Char),
    '*' ∉ s → subEmF fuel prev s = s := by
  intro fuel
  induction fuel with
  | zero => intro prev s _; cases s <;> rfl
  | succ n ih =>
    intro prev s hs
    cases s with
    | nil => rfl
    | cons c rest =>
      rw [List.mem_cons] at hs
      push_neg at hs
      conv_lhs => rw [subEmF]
      rw [if_neg (fun hc => hs.1 hc.1.symm), ih (some c) rest hs.2]

theorem subStrikeF_no_tilde : ∀ (fuel : Nat) (s : List Char), '~' ∉ s →
    subStrikeF fuel s = s := by
  intro fuel
  induction fuel with
  | zero => intro s _; cases s <;> rfl
  | succ n ih =>
    intro s hs
    cases s with
    | nil => rfl
    | cons c rest =>
      rw [List.mem_cons] at hs
      push_neg at hs
      conv_lhs => rw [subStrikeF]
      rw [if_neg (fun hc => hs.1 hc.1.symm), ih rest hs.2]

theorem subLinkF_no_bracket : ∀ (fuel : Nat) (s : List Char), '[' ∉ s →
    subLinkF fuel s = s := by
  intro fuel
  induction fuel with
  | zero => intro s _; cases s <;> rfl
  | succ n ih =>
    intro s hs
    cases s with
    | nil => rfl
    | cons c rest =>
      rw [List.mem_cons] at hs
      push_neg at hs
      conv_lhs => rw [subLinkF]
      rw [if_neg (fun hc => hs.1 hc.symm), ih rest hs.2]

theorem subCodeF_no_btick : ∀ (fuel : Nat) (s : List Char), btick ∉ s →
    subCodeF fuel s = s := by
  intro fuel
  induction fuel with
  | zero => intro s _; cases s <;> rfl
  | succ n ih =>
    intro s hs
    cases s with
    | nil => rfl
    | cons c rest =>
      rw [List.mem_cons] at hs
      push_neg at hs
      conv_lhs => rw [subCodeF]
      rw [if_neg (fun hc => hs.1 hc.symm), ih rest hs.2]

theorem process_inline_plain {s : List Char} (h : noDelims s) :
    process_inline s = s := by
  obtain ⟨h1, h2, h3, h4⟩ := h
  show subCode (subLink (subStrike (subEm (subStrong s)))) = s
  rw [subStrong, subStrongF_no_star _ _ h1]
  rw [subEm, subEmF_no_star _ _ _ h1]
  rw [subStrike, subStrikeF_no_tilde _ _ h2]
  rw [subLink, subLinkF_no_bracket _ _ h3]
  rw [subCode, subCodeF_no_btick _ _ h4]

/-! ## Claims -/

/-- C1: `MarkdownParser.parse` produces exactly one Element per input line
(the fields of splitting the text on newline characters), in input order:
the result is the per-line classification mapped over the split, so no
line is merged with another and no element spans more than one line. -/
theorem parse_one_element_per_line :
    ∀ content : List Char,
      parseElems content = (pySplitNl content).map classifyLine ∧
      (parseElems content).length = (pySplitNl content).length := by
  intro content
  refine ⟨parseLoop_eq_map _, ?_⟩
  rw [parseElems, parseLoop_eq_map]
  simp

/-- C4: `process_inline` applies its five rewrite rules in the fixed source
order strong, emphasis, strikethrough, link, inline code; on
`"**a *b* c**"` this yields strong emphasis around the whole span with
emphasis around `b`, and the strong rule is non-greedy (shortest span). -/
theorem inline_rule_order_and_nesting :
    (∀ t : List Char,
      process_inline t = subCode (subLink (subStrike (subEm (subStrong t))))) ∧
    process_inline "**a *b* c**".data = "<strong>a <em>b</em> c</strong>".data ∧
    subStrong "**a** **b**".data = "<strong>a</strong> <strong>b</strong>".data := by
  refine ⟨fun t => rfl, by decide, by decide⟩

/-- C5: N consecutive blank lines (a text of N-1 newline characters) parse
to exactly N `empty` elements, and the generated HTML body holds N distinct
`<p>&nbsp;</p>` paragraphs, one per empty element, never collapsed. -/
theorem blank_lines_preserved (N : Nat) (h : 1 ≤ N) :
    parseElems (List.replicate (N - 1) '\n') = List.replicate N Element.empty ∧
    htmlBody (List.replicate N Element.empty) =
      List.replicate N "<p>&nbsp;</p>".data := by
  obtain ⟨m, rfl⟩ : ∃ m, N = m + 1 := ⟨N - 1, (Nat.succ_pred_eq_of_pos h).symm⟩
  constructor
  · rw [parseElems]
    simp only [Nat.add_sub_cancel]
    rw [pySplitNl_replicate, parseLoop_eq_map, List.map_replicate]
    rfl
  · rw [htmlBody_eq_map, List.map_replicate]
    rfl

theorem blank_lines_preserved_witness :
    1 ≤ 3 ∧
    (parseElems (List.replicate (3 - 1) '\n') = List.replicate 3 Element.empty ∧
     htmlBody (List.replicate 3 Element.empty) =
       List.replicate 3 "<p>&nbsp;</p>".data) :=
  ⟨by decide, blank_lines_preserved 3 (by decide)⟩

/-- C6: the body loop of `HTMLGenerator.generate` emits exactly one markup
string per element in sequence order; an `li` element always becomes its
own standalone single-item list container of its `list_type`, so two
consecutive `li` elements give two separate containers. -/
theorem li_standalone_containers :
    (∀ els : List Element, (htmlBody els).length = els.length) ∧
    (∀ (els : List Element) (i : Nat) (hb : i < (htmlBody els).length)
       (he : i < els.length),
       (htmlBody els).get ⟨i, hb⟩ = renderElem (els.get ⟨i, he⟩)) ∧
    (∀ (k : ListKind) (t : List Char),
       renderElem (Element.li k t) =
         "<".data ++ listTag k ++ ">".data ++ "<li>".data ++
           process_inline t ++ "</li>".data ++ "</".data ++ listTag k ++
           ">".data) ∧
    htmlBody [Element.li ListKind.ul "a".data, Element.li ListKind.ol "b".data] =
      ["<ul><li>a</li></ul>".data, "<ol><li>b</li></ol>".data] := by
  refine ⟨?_, ?_, fun k t => rfl, by decide⟩
  · intro els
    rw [htmlBody_eq_map]
    simp
  · intro els i hb he
    simp [htmlBody_eq_map]

theorem li_standalone_containers_witness :
    0 < (htmlBody [Element.li ListKind.ul "x".data]).length ∧
    (htmlBody [Element.li ListKind.ul "x".data]).get ⟨0, by decide⟩ =
      renderElem (Element.li ListKind.ul "x".data) :=
  ⟨by decide,
   li_standalone_containers.2.1 [Element.li ListKind.ul "x".data] 0
     (by decide) (by decide)⟩

/-- C9: `MarkdownParser.parse` never returns an empty sequence: the empty
string parses to exactly one `empty` element, and appending a final newline
appends a trailing `empty` element for the text after it. -/
theorem parse_never_empty :
    (∀ s : List Char, parseElems s ≠ []) ∧
    parseElems [] = [Element.empty] ∧
    (∀ s : List Char,
      parseElems (s ++ ['\n']) = parseElems s ++ [Element.empty]) := by
  refine ⟨?_, rfl, ?_⟩
  · intro s h
    unfold parseElems at h
    cases hh : pySplitNl s with
    | nil => exact pySplitNl_ne_nil s hh
    | cons a b =>
      rw [hh, parseLoop_cons] at h
      exact List.cons_ne_nil _ _ h
  · intro s
    unfold parseElems
    rw [pySplitNl_append_nl, parseLoop_append]
    rfl

/-- C10: `process_inline` is the identity on texts containing none of the
delimiter characters, and such plain text appears verbatim inside its `<p>`
container in the rendered body. -/
theorem inline_identity_on_plain :
    (∀ s : List Char, noDelims s → process_inline s = s) ∧
    (∀ t : List Char, noDelims t →
      htmlBody [Element.p t] = ["<p>".data ++ t ++ "</p>".data]) := by
  refine ⟨fun s h => process_inline_plain h, fun t h => ?_⟩
  rw [htmlBody_cons]
  show [("<p>".data ++ process_inline t ++ "</p>".data)] = _
  rw [process_inline_plain h]

theorem inline_identity_on_plain_witness :
    noDelims "hello world".data ∧
    process_inline "hello world".data = "hello world".data :=
  ⟨by decide, inline_identity_on_plain.1 "hello world".data (by decide)⟩

/-- C2 counterexample: the line `"### "` begins with `"### "`, but `parse`
first right-strips it to `"###"`, which no heading branch matches, so it
becomes a paragraph rather than the `h3` with empty trimmed remainder the
claim predicts. -/
theorem heading_h3_counterexample :
    parseElems "### ".data = [Element.p "###".data] ∧
    parseElems "### ".data ≠ [Element.h3 []] := by
  decide

/-- C2 amended: every line that still begins with `"### "` after
trailing-whitespace removal is classified `h3` with the remainder trimmed,
never `h1` or `h2` despite the shared `#`/`##` prefixes. -/
theorem heading_h3_amended (l rest : List Char)
    (h : pyRstrip l = "### ".data ++ rest) :
    classifyLine l = Element.h3 (pyStrip rest) := by
  unfold classifyLine
  dsimp only
  rw [h]
  have e1 : "# ".data.isPrefixOf ("### ".data ++ rest) = false := rfl
  have e2 : "## ".data.isPrefixOf ("### ".data ++ rest) = false := rfl
  have e3 : "### ".data.isPrefixOf ("### ".data ++ rest) = true :=
    List.isPrefixOf_iff_prefix.mpr ⟨rest, rfl⟩
  rw [if_neg (by simp), e1, e2, e3]
  simp

theorem heading_h3_amended_witness :
    pyRstrip "### Title".data = "### ".data ++ "Title".data ∧
    classifyLine "### Title".data = Element.h3 (pyStrip "Title".data) :=
  ⟨by decide, heading_h3_amended "### Title".data "Title".data (by decide)⟩

/-- C3 counterexample: the empty text `T = ""` has no leading or trailing
whitespace, yet the line `"# "` right-strips to `"#"` and parses as a
paragraph, not as the `h1` with empty text the claim predicts. -/
theorem h1_trim_counterexample :
    pyStrip ([] : List Char) = [] ∧
    parseElems ("# ".data ++ ([] : List Char)) = [Element.p "#".data] ∧
    Element.p "#".data ≠ Element.h1 [] := by
  decide

/-- C3 amended: for every nonempty newline-free text T without leading or
trailing whitespace, parsing the single line `"# " + T` yields exactly one
element, an `h1` whose text is exactly T. -/
theorem h1_trim_amended (T : List Char) (hne : T ≠ [])
    (hs : pyStrip T = T) (hn : '\n' ∉ T) :
    parseElems ("# ".data ++ T) = [Element.h1 T] := by
  have hnl : '\n' ∉ ("# ".data ++ T) := by
    intro hmem
    rcases List.mem_append.mp hmem with hh | hh
    · exact absurd hh (by decide)
    · exact hn hh
  unfold parseElems
  rw [pySplitNl_no_newline _ hnl, parseLoop_cons]
  have hr : pyRstrip ("# ".data ++ T) = "# ".data ++ T :=
    pyRstrip_append _ (pyRstrip_eq_self_of_strip hs) hne
  show classifyLine ("# ".data ++ T) :: parseLoop [] = [Element.h1 T]
  unfold classifyLine
  dsimp only
  rw [hr]
  have e1 : "# ".data.isPrefixOf ("# ".data ++ T) = true :=
    List.isPrefixOf_iff_prefix.mpr ⟨T, rfl⟩
  rw [if_neg (by simp), e1, if_pos rfl]
  show [Element.h1 (pyStrip T)] = [Element.h1 T]
  rw [hs]

theorem h1_trim_amended_witness :
    ("Title".data ≠ ([] : List Char)) ∧ pyStrip "Title".data = "Title".data ∧
    '\n' ∉ "Title".data ∧
    parseElems ("# ".data ++ "Title".data) = [Element.h1 "Title".data] :=
  ⟨by decide, by decide, by decide,
   h1_trim_amended "Title".data (by decide) (by decide) (by decide)⟩

/-- C7: both construction paths yield a style mapping with all five keys
`h1 h2 h3 p li` populated; every successful run of `ask_style_config`
(including the EOF fallback) gives `h3` and `li` exactly the built-in
defaults, never prompting for them. -/
theorem style_sets_complete :
    ((DEFAULT_STYLES.lookup "h1").isSome = true ∧
     (DEFAULT_STYLES.lookup "h2").isSome = true ∧
     (DEFAULT_STYLES.lookup "h3").isSome = true ∧
     (DEFAULT_STYLES.lookup "p").isSome = true ∧
     (DEFAULT_STYLES.lookup "li").isSome = true) ∧
    (∀ (resps : List (List Char)) (S : List (String × ElementStyle))
       (rest : List (List Char)), ask_style_config resps = some (S, rest) →
       ((S.lookup "h1").isSome = true ∧ (S.lookup "h2").isSome = true ∧
        (S.lookup "p").isSome = true ∧
        S.lookup "h3" = some default_h3 ∧ S.lookup "li" = some default_li)) := by
  refine ⟨⟨rfl, rfl, rfl, rfl, rfl⟩, ?_⟩
  intro resps S rest h
  unfold ask_style_config at h
  repeat' split at h
  all_goals
    first
    | (simp only [Option.some.injEq, Prod.mk.injEq] at h
       obtain ⟨hS, hrest⟩ := h
       subst hS
       exact ⟨rfl, rfl, rfl, rfl, rfl⟩)
    | simp at h

theorem style_sets_complete_witness :
    ask_style_config [] = some (DEFAULT_STYLES, []) ∧
    ((DEFAULT_STYLES.lookup "h1").isSome = true ∧
     (DEFAULT_STYLES.lookup "h2").isSome = true ∧
     (DEFAULT_STYLES.lookup "p").isSome = true ∧
     DEFAULT_STYLES.lookup "h3" = some default_h3 ∧
     DEFAULT_STYLES.lookup "li" = some default_li) :=
  ⟨rfl, style_sets_complete.2 [] DEFAULT_STYLES [] rfl⟩

/-- C8 counterexample: with the input file missing (`inputExists = false`),
a host application present and a file argument given, the interactive mode
(no `--no-prompt`) prints a failure report but the process still exits 0,
contradicting the claim that every mode exits non-zero on a missing input
file. -/
theorem exit_status_counterexample :
    (Env.mk true false true).inputExists = false ∧
    main_exit (Args.mk (some "doc.md") false false false)
      (Env.mk true false true) [] = 0 :=
  ⟨rfl, rfl⟩

/-- C8 amended: in the non-interactive `--no-prompt` mode with a file
argument, the exit status is zero exactly when a host application is found,
the input file exists and the conversion succeeds — hence non-zero whenever
any of the three fails; interactive mode, by contrast, exits zero even on
those failures. -/
theorem exit_status_amended (env : Env) (f : String)
    (resps : List (List Char)) :
    main_exit (Args.mk (some f) true false false) env resps = 0 ↔
      (env.appFound = true ∧ env.inputExists = true ∧ env.saveOk = true) := by
  obtain ⟨a, i, s⟩ := env
  cases a <;> cases i <;> cases s <;>
    simp [main_exit, convert_ok, html_to_docx_ok]

end MdToWord
